import Mathlib

/-!
Verification development for the CodeVibes backend: a shallow embedding of
the priority-tiered streaming analysis orchestrator and its collaborators
(file classifier, repository content gateway, token/cost estimator, analysis
engine), translated from the TypeScript sources, together with theorems
settling the specification claims.

External platform primitives (the GitHub HTTP API, the DeepSeek HTTP API,
`JSON.parse`, `Date.now()`) are modelled as oracle fields of a `World`
record: the embedding is a pure function of the source code's logic over
those oracles, and every network side effect is recorded in an explicit
`Effect` trace.  JavaScript numbers are modelled as `Nat`/`ℚ` (exact
arithmetic of the source formulas).
-/

namespace CodeVibes

/-! ## JavaScript string primitives

Models of the JavaScript string operations the sources use
(`String.prototype.split`, `includes`, `trim`, `startsWith`, `endsWith`,
`slice`), written over `List Char` with structural recursion so that all
definitions evaluate inside the kernel. -/

/-- Is `pre` a prefix of `s` (character-wise)? -/
def isPre : List Char → List Char → Bool
  | [], _ => true
  | _ :: _, [] => false
  | p :: ps, c :: cs => (p == c) && isPre ps cs

/-- Does `s` contain `sub` as a contiguous substring?
Model of JavaScript `s.includes(sub)` for nonempty `sub`. -/
def containsL (sub : List Char) : List Char → Bool
  | [] => isPre sub []
  | c :: cs => isPre sub (c :: cs) || containsL sub cs

/-- JavaScript `s.includes(sub)`. -/
def jsIncludes (s sub : String) : Bool :=
  containsL sub.data s.data

/-- Fuel-driven worker for `splitOnL` (fuel bounds the scan length so the
recursion is structural; callers pass the input length). -/
def splitOnAuxL (sep : List Char) : Nat → List Char → List (List Char)
  | _, [] => [[]]
  | 0, s => [s]
  | fuel + 1, c :: cs =>
    if isPre sep (c :: cs) then
      [] :: splitOnAuxL sep fuel (cs.drop (sep.length - 1))
    else
      match splitOnAuxL sep fuel cs with
      | [] => [[]]
      | seg :: rest => (c :: seg) :: rest

/-- Split on every non-overlapping occurrence of the nonempty separator
`sep`.  Model of JavaScript `s.split(sep)` (always returns at least one
piece; adjacent separators yield empty pieces). -/
def splitOnL (sep s : List Char) : List (List Char) :=
  splitOnAuxL sep s.length s

/-- JavaScript `s.split(sep)` on strings. -/
def jsSplit (s sep : String) : List String :=
  (splitOnL sep.data s.data).map fun cs => ⟨cs⟩

/-- JavaScript whitespace characters (the common ones appearing in model
output: space, tab, newline, carriage return, form feed, vertical tab). -/
def isJsWS (c : Char) : Bool :=
  c == ' ' || c == '\t' || c == '\n' || c == '\r' ||
    c == Char.ofNat 12 || c == Char.ofNat 11

/-- JavaScript `s.trim()`. -/
def jsTrim (s : String) : String :=
  ⟨((s.data.dropWhile isJsWS).reverse.dropWhile isJsWS).reverse⟩

/-- JavaScript `s.startsWith(pre)`. -/
def jsStartsWith (s pre : String) : Bool :=
  isPre pre.data s.data

/-- JavaScript `s.endsWith(suf)`. -/
def jsEndsWith (s suf : String) : Bool :=
  isPre suf.data.reverse s.data.reverse

/-- Drop the first `n` characters (JavaScript `s.slice(n)`). -/
def jsDrop (s : String) (n : Nat) : String :=
  ⟨s.data.drop n⟩

/-- Drop the last `n` characters (JavaScript `s.slice(0, -n)`). -/
def jsDropRight (s : String) (n : Nat) : String :=
  ⟨s.data.take (s.data.length - n)⟩

/-- Join pieces with a separator (JavaScript `arr.join(sep)`). -/
def joinSep (sep : String) : List String → String
  | [] => ""
  | [x] => x
  | x :: xs => x ++ sep ++ joinSep sep xs

/-- Rejoin the trailing pieces of a split: the suffix of the original
string after the first separator occurrence. -/
def joinSepTail (sep first : String) (rest : List String) : String :=
  joinSep sep (first :: rest)

/-- Concatenation of a list of strings (JavaScript `arr.join('')`,
used for accumulating streamed fragments). -/
def concatAll : List String → String
  | [] => ""
  | x :: xs => x ++ concatAll xs

/-! ## Glob matching (model of `minimatch(path, pattern, {dot: true, matchBase: true})`)

The pattern tables in `src/utils/fileFilter.ts` only use literal segments,
the in-segment wildcard `*`, and the any-depth segment `**`; with
`dot: true` there is no special treatment of leading dots, and with
`matchBase: true` a pattern containing no slash is matched against the
basename of the path. -/

/-- In-segment glob match: `*` matches any (possibly empty) run of
characters, everything else is literal.  Model of minimatch's one-segment
matching for the pattern alphabet used by `fileFilter.ts`.  A `*` matches
the pattern tail against every suffix of the remaining name. -/
def segMatch : List Char → List Char → Bool
  | [], s => s.isEmpty
  | '*' :: ps, s => (s.tails).any fun t => segMatch ps t
  | _ :: _, [] => false
  | p :: ps, c :: cs => (p == c) && segMatch ps cs

/-- Segment-level glob match: a `**` pattern segment matches zero or more
path segments (the pattern tail is matched against every suffix of the
remaining segments); any other pattern segment must match exactly one path
segment via `segMatch`. -/
def globMatch : List (List Char) → List (List Char) → Bool
  | [], ss => ss.isEmpty
  | p :: ps, ss =>
    if p == ['*', '*'] then (ss.tails).any fun t => globMatch ps t
    else
      match ss with
      | [] => false
      | s :: ss' => segMatch p s && globMatch ps ss'

/-- Basename of a POSIX-style path (last `/`-separated segment). -/
def basename (p : List Char) : List Char :=
  ((splitOnL ['/'] p).getLast?).getD p

/-- Model of `minimatch(filePath, pattern, { dot: true, matchBase: true })`
as used by `matchesAnyPattern` in `src/utils/fileFilter.ts`:
`matchBase` makes a slash-free pattern match against the basename. -/
def minimatchDotBase (filePath pattern : String) : Bool :=
  if pattern.data.contains '/' then
    globMatch (splitOnL ['/'] pattern.data) (splitOnL ['/'] filePath.data)
  else
    segMatch pattern.data (basename filePath.data)

/-! ## File classifier (`src/utils/fileFilter.ts`) -/

/-- `IGNORE_PATTERNS` from `src/utils/fileFilter.ts` (lines 65-138). -/
def IGNORE_PATTERNS : List String :=
  [ "node_modules/**", "vendor/**", "__pycache__/**", ".venv/**", "venv/**",
    "dist/**", "build/**", "out/**", ".next/**", ".nuxt/**", ".output/**", "target/**",
    ".git/**", ".github/**", ".gitlab/**", ".svn/**",
    "coverage/**", "test-results/**", ".nyc_output/**",
    ".idea/**", ".vscode/**", "*.swp", "*.swo", ".DS_Store",
    "package-lock.json", "yarn.lock", "pnpm-lock.yaml", "Gemfile.lock",
    "poetry.lock", "composer.lock",
    "*.min.js", "*.min.css", "*.bundle.js",
    "*.png", "*.jpg", "*.jpeg", "*.gif", "*.ico", "*.svg", "*.webp",
    "*.mp4", "*.mp3", "*.wav", "*.pdf", "*.zip", "*.tar", "*.gz",
    "*.woff", "*.woff2", "*.ttf", "*.eot",
    "*.map", "*.d.ts", "generated/**", "auto-generated/**" ]

/-- `PRIORITY_1_PATTERNS` (security critical) from `fileFilter.ts` (lines 141-191). -/
def PRIORITY_1_PATTERNS : List String :=
  [ ".env", ".env.local", ".env.production", ".env.development", ".env.test", "**/.env",
    "**/auth/**", "**/authentication/**", "**/authorization/**", "**/security/**",
    "**/crypto/**", "**/secrets/**",
    "**/config/**", "**/configs/**", "**/configuration/**", "*.config.js", "*.config.ts",
    "**/*secret*", "**/*password*", "**/*token*", "**/*key*", "**/*credential*",
    "**/*private*",
    "**/middleware/**", "**/middlewares/**",
    "**/database/**", "**/db/**", "**/repositories/**", "**/*.sql", "**/queries/**",
    "**/migrations/**",
    "**/*cors*", "**/access-control/**" ]

/-- `PRIORITY_2_PATTERNS` (core business logic) from `fileFilter.ts` (lines 194-231). -/
def PRIORITY_2_PATTERNS : List String :=
  [ "**/api/**", "**/routes/**", "**/router/**", "**/endpoints/**",
    "**/controllers/**", "**/services/**", "**/handlers/**", "**/use-cases/**",
    "**/usecases/**",
    "**/models/**", "**/entities/**", "**/schemas/**",
    "index.js", "index.ts", "main.js", "main.ts", "app.js", "app.ts",
    "server.js", "server.ts", "main.py", "app.py", "__main__.py",
    "src/index.*", "src/main.*", "src/app.*", "lib/**" ]

/-- `PRIORITY_3_PATTERNS` (supporting code) from `fileFilter.ts` (lines 234-277). -/
def PRIORITY_3_PATTERNS : List String :=
  [ "**/utils/**", "**/utilities/**", "**/helpers/**", "**/common/**",
    "**/shared/**", "**/lib/**",
    "**/components/**", "**/views/**", "**/pages/**", "**/layouts/**",
    "**/templates/**",
    "**/*.test.*", "**/*.spec.*", "**/test/**", "**/tests/**", "**/__tests__/**",
    "*.md", "**/docs/**",
    "**/*.css", "**/*.scss", "**/*.less",
    "**/*.js", "**/*.ts", "**/*.jsx", "**/*.tsx", "**/*.py", "**/*.java",
    "**/*.go", "**/*.rb", "**/*.php", "**/*.rs" ]

/-- `matchesAnyPattern` from `fileFilter.ts` (lines 282-286). -/
def matchesAnyPattern (filePath : String) (patterns : List String) : Bool :=
  patterns.any fun pattern => minimatchDotBase filePath pattern

/-- `shouldIgnoreFile` from `fileFilter.ts` (lines 291-293). -/
def shouldIgnoreFile (filePath : String) : Bool :=
  matchesAnyPattern filePath IGNORE_PATTERNS

/-- `getFilePriority` from `fileFilter.ts` (lines 299-322): priority levels
are `some 1`, `some 2`, `some 3`; `none` is the TypeScript `null` (ignored). -/
def getFilePriority (filePath : String) : Option Nat :=
  if shouldIgnoreFile filePath then none
  else if matchesAnyPattern filePath PRIORITY_1_PATTERNS then some 1
  else if matchesAnyPattern filePath PRIORITY_2_PATTERNS then some 2
  else if matchesAnyPattern filePath PRIORITY_3_PATTERNS then some 3
  else none

/-- `filterFilesByPriority` from `fileFilter.ts` (lines 327-332). -/
def filterFilesByPriority (files : List String) (priority : Nat) : List String :=
  files.filter fun file => getFilePriority file == some priority

/-- `getPriorityName` from `fileFilter.ts` (lines 417-426). -/
def getPriorityName : Nat → String
  | 1 => "Security & Secrets"
  | 2 => "Core Business Logic"
  | 3 => "Supporting Code"
  | _ => ""

/-- The pattern table for tier `t` (1, 2, 3). -/
def tierPatterns : Nat → List String
  | 1 => PRIORITY_1_PATTERNS
  | 2 => PRIORITY_2_PATTERNS
  | 3 => PRIORITY_3_PATTERNS
  | _ => []

/-- The ascending list of tiers whose pattern table matches the path. -/
def matchedTiers (filePath : String) : List Nat :=
  [1, 2, 3].filter fun t => matchesAnyPattern filePath (tierPatterns t)

/-! ## Token/cost estimator (`src/utils/tokenCounter.ts`) -/

/-- `INPUT_COST_PER_MILLION` (DeepSeek input pricing, USD per million tokens). -/
def INPUT_COST_PER_MILLION : ℚ := 14 / 100

/-- `OUTPUT_COST_PER_MILLION` (DeepSeek output pricing, USD per million tokens). -/
def OUTPUT_COST_PER_MILLION : ℚ := 28 / 100

/-- `estimateTokens` from `tokenCounter.ts`: `Math.ceil(text.length / 4)`,
with the explicit empty-text guard. -/
def estimateTokens (text : String) : Nat :=
  if text = "" then 0 else (text.length + 3) / 4

/-- `calculateCost` from `tokenCounter.ts`:
`inputTokens / 1e6 * inputRate + outputTokens / 1e6 * outputRate`
over exact rational arithmetic. -/
def calculateCost (inputTokens outputTokens : ℚ) : ℚ :=
  inputTokens / 1000000 * INPUT_COST_PER_MILLION
    + outputTokens / 1000000 * OUTPUT_COST_PER_MILLION

/-! ## JSON values

`JSON.parse` is a JavaScript platform primitive; the embedding abstracts it
as an oracle `String → Option Json` (`none` models a parse exception).
`Json` is the type of its possible results. -/

/-- A parsed JavaScript JSON value. -/
inductive Json where
  | null : Json
  | bool (b : Bool) : Json
  | num (q : ℚ) : Json
  | str (s : String) : Json
  | arr (elems : List Json) : Json
  | obj (fields : List (String × Json)) : Json

/-- First-match field lookup in a JSON object literal. -/
def lookupField : List (String × Json) → String → Option Json
  | [], _ => none
  | (k, v) :: rest, key => if k == key then some v else lookupField rest key

/-- JavaScript property access `value[key]`: `none` models `undefined`
(missing field, or access on a non-object). -/
def getField : Json → String → Option Json
  | .obj fields, key => lookupField fields key
  | _, _ => none

/-- JavaScript truthiness of a JSON value. -/
def jsTruthy : Json → Bool
  | .null => false
  | .bool b => b
  | .num q => !(q == 0)
  | .str s => !(s == "")
  | .arr _ => true
  | .obj _ => true

/-- `Array.isArray`. -/
def isJsonArr : Json → Bool
  | .arr _ => true
  | _ => false

/-- JavaScript `a || dflt` where `a` is an optionally-present JSON value
(`none` = `undefined`). -/
def jsOrJson (v : Option Json) (dflt : Json) : Json :=
  match v with
  | some x => if jsTruthy x then x else dflt
  | none => dflt

/-- JavaScript `a || b` where both operands are optionally-present JSON
values. -/
def jsOrOpt (a b : Option Json) : Option Json :=
  match a with
  | some x => if jsTruthy x then some x else b
  | none => b

/-! ## Data model records -/

/-- `RepoInfo` from `src/types` as assembled by `validateRepo`
(`githubService.ts` lines 52-78). -/
structure RepoInfo where
  owner : String
  name : String
  fullName : String
  description : Option String
  stars : Nat
  language : Option String
  lastUpdate : String
  defaultBranch : String
  isPrivate : Bool
deriving DecidableEq

/-- One raw entry of the GitHub tree response (`data.tree` items in
`getFileTree`); `itemType` models the `type` field. -/
structure TreeItem where
  path : String
  itemType : String
  size : Option Nat
  sha : String
deriving DecidableEq

/-- `FileEntry` produced by `getFileTree` (blobs only). -/
structure FileEntry where
  path : String
  size : Nat
  sha : String
deriving DecidableEq

/-- `FileContent` produced by `getFileContent` (decoded text). -/
structure FileContent where
  path : String
  content : String
  size : Nat
deriving DecidableEq

/-- Network side effects of the embedding, recorded as an explicit trace:
one `metaCall` per `octokit.repos.get`, one `treeCall` per
`octokit.git.getTree`, one `contentCall` per `octokit.repos.getContent`,
one `aiCall` per DeepSeek completion request. -/
inductive Effect where
  | metaCall (owner repo : String)
  | treeCall (owner repo : String)
  | contentCall (path : String)
  | aiCall (numFiles : Nat)
deriving DecidableEq

/-- Outcomes of the external services for one run: GitHub responses are
`Except (status, message) value`; `contentGet` yields the decoded
(content, size) of a path or a per-file error; `aiResult` is the DeepSeek
streaming response (HTTP error, or the parsed content deltas of the SSE
stream); `parseJson` is `JSON.parse`; `nowMs` is `Date.now()`. -/
structure World where
  repoGet : Except (Nat × String) RepoInfo
  treeGet : Except (Nat × String) (List TreeItem)
  contentGet : String → Except String (String × Nat)
  aiResult : Except (Nat × String) (List String)
  parseJson : String → Option Json
  nowMs : Nat

/-! ## Repository content gateway (`src/services/githubService.ts`) -/

/-- The module-level `fileTreeCache` map: key → (entries, timestamp). -/
abbrev FileTreeCache := List (String × (List FileEntry × Nat))

/-- `fileTreeCache.get`. -/
def lookupCache : FileTreeCache → String → Option (List FileEntry × Nat)
  | [], _ => none
  | (k, v) :: rest, key => if k == key then some v else lookupCache rest key

/-- `fileTreeCache.set` (replaces any previous entry for the key). -/
def setCache (cache : FileTreeCache) (key : String) (v : List FileEntry × Nat) :
    FileTreeCache :=
  (key, v) :: cache.filter fun kv => !(kv.1 == key)

/-- `CACHE_TTL = 5 * 60 * 1000` (5 minutes, in milliseconds). -/
def CACHE_TTL : Nat := 5 * 60 * 1000

/-- The cache key `` `${owner}/${repo}/${branch || 'default'}` ``. -/
def treeKey (owner repo : String) (branch : Option String) : String :=
  owner ++ "/" ++ repo ++ "/" ++ branch.getD "default"

/-- `parseGitHubUrl` from `githubService.ts` (lines 16-34): the regex
`github.com\/([^\/]+)\/([^\/]+)` anchored at the first occurrence of
`github.com/`, then `.git`-suffix stripping and truncation at `/`, `?`,
`#`. -/
def parseGitHubUrl (url : String) : Option (String × String) :=
  match jsSplit url "github.com/" with
  | _ :: piece :: rest =>
    let after : String := joinSepTail "github.com/" piece rest
    let owner : String := ⟨after.data.takeWhile fun c => !(c == '/')⟩
    if owner == "" then none
    else
      match after.data.dropWhile fun c => !(c == '/') with
      | '/' :: tail =>
        let repoRaw : String := ⟨tail.takeWhile fun c => !(c == '/')⟩
        if repoRaw == "" then none
        else
          let repo := if jsEndsWith repoRaw ".git" then jsDropRight repoRaw 4 else repoRaw
          let repo := ((jsSplit repo "/").headD "")
          let repo := ((jsSplit repo "?").headD "")
          let repo := ((jsSplit repo "#").headD "")
          some (owner, repo)
      | _ => none
  | _ => none

/-- The value of one `octokit.repos.get` round trip as seen by
`validateRepo` (`githubService.ts` lines 52-78): a `RepoInfo` assembled
from the response, or the distinct error messages for 404 (not found),
403 (rate limited) and other failures. -/
def repoGetResult (w : World) (owner repo : String) : Except String RepoInfo :=
  match w.repoGet with
  | .ok d => .ok { d with owner := owner, name := repo }
  | .error (404, _) => .error ("Repository not found: " ++ owner ++ "/" ++ repo)
  | .error (403, _) =>
    .error "GitHub API rate limit exceeded. Try again later or add a GITHUB_TOKEN."
  | .error (_, msg) => .error ("Failed to fetch repository: " ++ msg)

/-- `validateRepo`: the mapped metadata response, plus exactly one metadata
call in the effect trace. -/
def validateRepoM (w : World) (owner repo : String) :
    Except String RepoInfo × List Effect :=
  (repoGetResult w owner repo, [.metaCall owner repo])

/-- The value of one `octokit.git.getTree` round trip as mapped by
`getFileTree` (lines 112-143): filter the raw tree to blobs with a path
and a sha and build `FileEntry` values; distinct errors for 404, 409 and
other failures. -/
def treeCallResult (w : World) (owner repo : String) : Except String (List FileEntry) :=
  match w.treeGet with
  | .ok items =>
    .ok ((items.filter fun i =>
        i.itemType == "blob" && !(i.path == "") && !(i.sha == "")).map
      fun i => FileEntry.mk i.path (i.size.getD 0) i.sha)
  | .error (404, _) =>
    .error ("Repository or branch not found: " ++ owner ++ "/" ++ repo)
  | .error (409, _) => .error "Repository is empty"
  | .error (_, msg) => .error ("Failed to get file tree: " ++ msg)

/-- The tree-listing step of `getFileTree`: issue the tree call, and on
success cache the entries under `cacheKey` stamped with `Date.now()`
(failures leave the cache untouched). -/
def fetchTreeCall (w : World) (owner repo cacheKey : String)
    (cache : FileTreeCache) (efs0 : List Effect) :
    Except String (List FileEntry) × List Effect × FileTreeCache :=
  match treeCallResult w owner repo with
  | .ok files =>
    (.ok files, efs0 ++ [.treeCall owner repo], setCache cache cacheKey (files, w.nowMs))
  | .error m => (.error m, efs0 ++ [.treeCall owner repo], cache)

/-- The cache-miss path of `getFileTree`: resolve the target branch
(`branch || (await validateRepo(owner, repo)).defaultBranch` — one extra
metadata call when `branch` is absent; a failure there carries no `status`
field and is wrapped by the catch as `Failed to get file tree: …`), then
issue the tree-listing call. -/
def fetchTreeFresh (w : World) (owner repo : String) (branch : Option String)
    (cacheKey : String) (cache : FileTreeCache) :
    Except String (List FileEntry) × List Effect × FileTreeCache :=
  match branch with
  | some _ => fetchTreeCall w owner repo cacheKey cache []
  | none =>
    match validateRepoM w owner repo with
    | (.error m, efs) => (.error ("Failed to get file tree: " ++ m), efs, cache)
    | (.ok _, efs) => fetchTreeCall w owner repo cacheKey cache efs

/-- `getFileTree` from `githubService.ts` (lines 95-144): serve a cache
entry younger than `CACHE_TTL` with zero network calls, otherwise refetch. -/
def getFileTreeM (w : World) (cache : FileTreeCache) (owner repo : String)
    (branch : Option String) :
    Except String (List FileEntry) × List Effect × FileTreeCache :=
  match lookupCache cache (treeKey owner repo branch) with
  | some (data, ts) =>
    if w.nowMs - ts < CACHE_TTL then (.ok data, [], cache)
    else fetchTreeFresh w owner repo branch (treeKey owner repo branch) cache
  | none => fetchTreeFresh w owner repo branch (treeKey owner repo branch) cache

/-- `getFileContent` (lines 149-187): one content call; the oracle carries
the decoded text and size (transport decoding and the per-status error
messages are absorbed into the oracle, since every error is swallowed by
the caller). -/
def getFileContentM (w : World) (path : String) : Except String FileContent :=
  match w.contentGet path with
  | .ok (content, size) => .ok ⟨path, content, size⟩
  | .error m => .error m

/-- The per-file loop of `getFilesContents` (lines 211-247): one content
call per path; a success appends to the result, a failure is swallowed;
after every file the progress callback fires with
`(processedCount, total, path)`.  The concurrent batches of 5 resolve in
list order (`Promise.all` preserves order), so the sequential loop is the
observable behaviour. -/
def fetchLoop (w : World) (total : Nat) :
    List String → Nat → List FileContent × List Effect × List (Nat × Nat × String)
  | [], _ => ([], [], [])
  | path :: rest, processed =>
    let step := fetchLoop w total rest (processed + 1)
    match getFileContentM w path with
    | .ok c =>
      (c :: step.1, .contentCall path :: step.2.1, (processed + 1, total, path) :: step.2.2)
    | .error _ =>
      (step.1, .contentCall path :: step.2.1, (processed + 1, total, path) :: step.2.2)

/-- `getFilesContents` from `githubService.ts` (lines 193-251): truncate to
`maxFiles` paths, then run the batched fetch loop.  Returns (contents,
effect trace, progress invocations); the call itself never throws. -/
def getFilesContentsM (w : World) (paths : List String) (maxFiles : Nat) :
    List FileContent × List Effect × List (Nat × Nat × String) :=
  let filesToFetch := paths.take maxFiles
  fetchLoop w filesToFetch.length filesToFetch 0

/-- `getFilesForPriority` from `githubService.ts` (lines 257-281): list the
tree (cached), filter by priority, then fetch the selected files'
contents.  Returns the fetched files and `totalMatching`. -/
def getFilesForPriorityM (w : World) (cache : FileTreeCache) (owner repo : String)
    (priority maxFiles : Nat) :
    Except String (List FileContent × Nat) × List Effect × FileTreeCache ×
      List (Nat × Nat × String) :=
  match getFileTreeM w cache owner repo none with
  | (.error m, efs, c) => (.error m, efs, c, [])
  | (.ok allFiles, efs, c) =>
    let allPaths := allFiles.map fun f => f.path
    let priorityFiles := filterFilesByPriority allPaths priority
    let r := getFilesContentsM w priorityFiles maxFiles
    (.ok (r.1, priorityFiles.length), efs ++ r.2.1, c, r.2.2)

/-! ## Analysis engine (`deepseekService.ts`) -/

/-- `PRIORITY_1_PROMPT` from `deepseekService.ts`.  The instruction prose
(security-review rubric and JSON response schema) is abridged to a short
placeholder: no claim depends on the prompt text, which enters the model
only through its character length via `estimateTokens`. -/
def PRIORITY_1_PROMPT : String :=
  "You are a senior security engineer. Review the files for secrets, injection, auth flaws. Respond with ONLY valid JSON of shape issues plus summary."

/-- `PRIORITY_2_PROMPT` (abridged, see `PRIORITY_1_PROMPT`). -/
def PRIORITY_2_PROMPT : String :=
  "You are a senior backend engineer. Review the core business logic for bugs, performance and data-integrity problems. Respond with ONLY valid JSON."

/-- `PRIORITY_3_PROMPT` (abridged, see `PRIORITY_1_PROMPT`). -/
def PRIORITY_3_PROMPT : String :=
  "You are a code quality expert. Review this supporting code for maintainability improvements. Respond with ONLY valid JSON, no markdown."

/-- `getPromptForPriority`: the TypeScript switch is exhaustive over the
union type `1 | 2 | 3`. -/
def getPromptForPriority : Nat → String
  | 1 => PRIORITY_1_PROMPT
  | 2 => PRIORITY_2_PROMPT
  | _ => PRIORITY_3_PROMPT

/-- `formatFilesForPrompt`: per-file path headers joined with newlines. -/
def formatFilesForPrompt (files : List FileContent) : String :=
  joinSep "\n" (files.map fun f => "=== FILE: " ++ f.path ++ " ===\n" ++ f.content ++ "\n")

/-- An analysis finding as normalized by `parseIssuesFromResponse`.
String-typed fields hold the validated values; fields that JavaScript
leaves dynamically typed stay as `Json`, with `none` for `undefined`. -/
structure AnalysisIssue where
  id : String
  severity : String
  category : String
  file : Json
  line : Option ℚ
  title : Json
  description : Json
  impact : Option Json
  fix : Option Json
  codeExample : Option Json

/-- The per-issue normalization inside `parseIssuesFromResponse`
(`deepseekService.ts` lines 648-663): synthesized id from `Date.now()` and
the index, severity/category whitelists with defaults, `||`-defaults for
the text fields, `typeof === 'number'` check for the line. -/
def normalizeIssue (nowMs idx : Nat) (issue : Json) : AnalysisIssue :=
  { id := "issue-" ++ toString nowMs ++ "-" ++ toString idx
    severity :=
      match getField issue "severity" with
      | some (.str s) =>
        if s == "CRITICAL" || s == "HIGH" || s == "MEDIUM" || s == "LOW" then s
        else "MEDIUM"
      | _ => "MEDIUM"
    category :=
      match getField issue "category" with
      | some (.str s) =>
        if s == "security" || s == "bug" || s == "performance" || s == "quality" then s
        else "quality"
      | _ => "quality"
    file := jsOrJson (getField issue "file") (.str "unknown")
    line := match getField issue "line" with | some (.num q) => some q | _ => none
    title := jsOrJson (getField issue "title") (.str "Issue found")
    description := jsOrJson (getField issue "description") (.str "")
    impact := getField issue "impact"
    fix := jsOrOpt (getField issue "fix") (getField issue "suggestedFix")
    codeExample := jsOrOpt (getField issue "codeExample") (getField issue "code_example") }

/-- The markdown-fence extraction regex
`` /```(?:json)?\s*([\s\S]*?)```/ `` of `parseIssuesFromResponse`: the text
between the first pair of ``` fences, with an optional `json` tag and
leading whitespace stripped, then trimmed (`jsonMatch[1].trim()`).
`none` when the response holds no complete fenced block. -/
def extractFencedBlock (s : String) : Option String :=
  match splitOnL ['`', '`', '`'] s.data with
  | _ :: inner :: _ :: _ =>
    let inner := if isPre ['j', 's', 'o', 'n'] inner then inner.drop 4 else inner
    some (jsTrim ⟨inner⟩)
  | _ => none

/-- The string handed to `JSON.parse`: the fenced block when present,
otherwise the trimmed response. -/
def extractJsonStr (response : String) : String :=
  match extractFencedBlock response with
  | some inner => inner
  | none => jsTrim response

/-- `parseIssuesFromResponse` from `deepseekService.ts` (lines 634-667):
extract the JSON text, parse it (a parse exception is caught and yields
`[]`), return `[]` unless the top-level value has a truthy array `issues`
field, and otherwise normalize each issue. -/
def parseIssuesFromResponse (parseJson : String → Option Json) (nowMs : Nat)
    (response : String) : List AnalysisIssue :=
  match parseJson (extractJsonStr response) with
  | none => []
  | some parsed =>
    match getField parsed "issues" with
    | none => []
    | some issuesVal =>
      if !(jsTruthy issuesVal) then []
      else
        match issuesVal with
        | .arr issues => issues.enum.map fun p => normalizeIssue nowMs p.1 p.2
        | _ => []

/-- One event yielded by the `streamAnalysis` async generator. -/
inductive StreamEvent where
  | chunk (content : String)
  | complete (issues : List AnalysisIssue) (inputTokens outputTokens : Nat) (cost : ℚ)

/-- `streamAnalysis` from `deepseekService.ts` (lines 749-856): build the
tier prompt and user message, issue one streaming completion request
(distinct errors for HTTP 401 / 429 / other), re-emit every nonempty
content delta as a `chunk`, and at stream end parse the accumulated text
and yield a single `complete` event with estimated token counts and cost.
The SSE wire format (line framing, `[DONE]`, per-chunk JSON) is absorbed
into the oracle, which carries the parsed content deltas. -/
def streamAnalysisM (w : World) (files : List FileContent) (priority : Nat) :
    Except String (List StreamEvent) × List Effect :=
  let systemPrompt := getPromptForPriority priority
  let userMessage :=
    "Analyze the following " ++ toString files.length ++ " files:\n\n" ++
      formatFilesForPrompt files
  let inputTokens := estimateTokens systemPrompt + estimateTokens userMessage
  match w.aiResult with
  | .error (401, _) => (.error "Invalid DeepSeek API key", [.aiCall files.length])
  | .error (429, _) =>
    (.error "DeepSeek rate limit exceeded. Please wait and try again.",
     [.aiCall files.length])
  | .error (status, errorText) =>
    (.error ("DeepSeek API error: " ++ toString status ++ " - " ++ errorText),
     [.aiCall files.length])
  | .ok fragments =>
    let fullContent := concatAll fragments
    let issues := parseIssuesFromResponse w.parseJson w.nowMs fullContent
    let outputTokens := estimateTokens fullContent
    let cost := calculateCost (inputTokens : ℚ) (outputTokens : ℚ)
    (.ok ((fragments.filter fun c => !(c == "")).map StreamEvent.chunk ++
       [.complete issues inputTokens outputTokens cost]),
     [.aiCall files.length])

/-! ## Orchestrator (`src/services/analysisService.ts`) -/

/-- The `status` field of a `file` SSE event. -/
inductive FileEvStatus where
  | scanning
  | complete
deriving DecidableEq

/-- `nextPriorityEstimate` payload of a `complete` event. -/
structure NextEstimate where
  files : Nat
  estimatedTokens : ℤ
  estimatedCost : ℚ

/-- `CompleteEventData`. -/
structure CompleteData where
  priority : Nat
  filesScanned : Nat
  issuesFound : Nat
  tokensUsed : Nat
  cost : ℚ
  nextPriorityEstimate : Option NextEstimate

/-- One SSE event sent to the client (`sendStatus`, `sendFileEvent`,
`sendIssue`, `sendComplete`, `sendError` in `analysisService.ts`). -/
inductive Event where
  | status (message : String) (filesScanned totalFiles : Nat) (currentFile : Option String)
  | file (path : String) (priority : Nat) (fileStatus : FileEvStatus)
  | issue (data : AnalysisIssue)
  | complete (data : CompleteData)
  | error (message code : String) (retryable : Bool)

/-- `MAX_FILES_PER_PRIORITY` (env default `'20'`). -/
def MAX_FILES_PER_PRIORITY : Nat := 20

/-- The events sent by the progress callback wired into
`getFilesForPriority` (`analysisService.ts` lines 128-131): one `status`
and one `file … scanning` event per progress invocation. -/
def progToEvents (priority : Nat) (prog : List (Nat × Nat × String)) : List Event :=
  prog.flatMap fun p =>
    [.status ("Fetching files... (" ++ toString p.1 ++ "/" ++ toString p.2.1 ++ ")")
       p.1 p.2.1 (some p.2.2),
     .file p.2.2 priority .scanning]

/-- Does the stream still hold a `complete` event? -/
def hasCompleteEv : List StreamEvent → Bool
  | [] => false
  | .complete _ _ _ _ :: _ => true
  | .chunk _ :: rest => hasCompleteEv rest

/-- The `for await (const event of stream)` loop of `analyzeRepository`
(lines 163-177): chunks are ignored; each `complete` event overwrites the
token totals and `allIssues` and emits its issues as individual `issue`
events.  Returns (issue events, final `allIssues`, input tokens, output
tokens). -/
def streamLoop : List StreamEvent → List Event × List AnalysisIssue × Nat × Nat
  | [] => ([], [], 0, 0)
  | .chunk _ :: rest => streamLoop rest
  | .complete issues inT outT _ :: rest =>
    let r := streamLoop rest
    (issues.map Event.issue ++ r.1,
     if hasCompleteEv rest then r.2 else (issues, inT, outT))

/-- The catch-all error classification at the end of `analyzeRepository`
(lines 218-227): message containing `API key` → `INVALID_API_KEY`
(not retryable), else containing `rate limit` → `RATE_LIMITED`
(retryable), else `ANALYSIS_ERROR` (not retryable). -/
def classifyCatch (m : String) : Event :=
  if jsIncludes m "API key" then .error m "INVALID_API_KEY" false
  else if jsIncludes m "rate limit" then .error m "RATE_LIMITED" true
  else .error ("Analysis failed: " ++ m) "ANALYSIS_ERROR" false

/-- The first status event of a run. -/
def statusValidating : Event := .status "Validating repository..." 0 0 none

/-- The scanning status event for a tier. -/
def statusScanning (priority : Nat) : Event :=
  .status ("Scanning " ++ getPriorityName priority ++ " files...") 0 0 none

/-- `analyzeRepository` from `analysisService.ts` (lines 81-231), for one
priority tier: URL parsing, repository validation, the private-repo guard,
the per-tier fetch (with forwarded progress events), the zero-file early
completion, the AI analysis stream, the next-tier estimate (for tiers 1
and 2), the final `complete` event, and the catch-all error
classification.  Returns (SSE events, effect trace, final cache). -/
def analyzeRepositoryM (w : World) (cache : FileTreeCache) (repoUrl : String)
    (priority : Nat) (githubToken : Option String) :
    List Event × List Effect × FileTreeCache :=
  match parseGitHubUrl repoUrl with
  | none => ([.error "Invalid GitHub URL format" "INVALID_URL" false], [], cache)
  | some (owner, repo) =>
    match validateRepoM w owner repo with
    | (.error m, efs) =>
      ([statusValidating, .error m "REPO_NOT_FOUND" false], efs, cache)
    | (.ok repoInfo, efs) =>
      if repoInfo.isPrivate && githubToken.isNone then
        ([statusValidating,
          .error "Private repositories require login" "PRIVATE_REPO" false], efs, cache)
      else
        match getFilesForPriorityM w cache owner repo priority MAX_FILES_PER_PRIORITY with
        | (.error m, efs2, c2, _) =>
          ([statusValidating, statusScanning priority, classifyCatch m],
           efs ++ efs2, c2)
        | (.ok (files, _totalMatching), efs2, c2, prog) =>
          let preEvents :=
            [statusValidating, statusScanning priority] ++ progToEvents priority prog
          if files.length == 0 then
            (preEvents ++
               [.status ("No files found for Priority " ++ toString priority) 0 0 none,
                .complete ⟨priority, 0, 0, 0, 0, none⟩],
             efs ++ efs2, c2)
          else
            let analyzed := preEvents ++
              (files.map fun f => Event.file f.path priority .complete) ++
              [.status ("Analyzing " ++ toString files.length ++ " files with AI...")
                 files.length files.length none]
            match streamAnalysisM w files priority with
            | (.error m, efs3) => (analyzed ++ [classifyCatch m], efs ++ efs2 ++ efs3, c2)
            | (.ok sevents, efs3) =>
              let r := streamLoop sevents
              let issueEvents := r.1
              let allIssues := r.2.1
              let totalInputTokens := r.2.2.1
              let totalOutputTokens := r.2.2.2
              let totalCost := calculateCost (totalInputTokens : ℚ) (totalOutputTokens : ℚ)
              let totalTokens := totalInputTokens + totalOutputTokens
              if priority < 3 then
                match getFilesForPriorityM w c2 owner repo (priority + 1)
                    MAX_FILES_PER_PRIORITY with
                | (.error m, efs4, c3, _) =>
                  (analyzed ++ issueEvents ++ [classifyCatch m],
                   efs ++ efs2 ++ efs3 ++ efs4, c3)
                | (.ok (nextFiles, nextTotal), efs4, c3, _) =>
                  let avgTokensPerFile : ℚ :=
                    if (totalInputTokens : ℚ) / (files.length : ℚ) == 0 then 500
                    else (totalInputTokens : ℚ) / (files.length : ℚ)
                  let estimatedTokens : ℤ := ⌈(nextFiles.length : ℚ) * avgTokensPerFile⌉
                  let est : NextEstimate :=
                    ⟨nextTotal, estimatedTokens,
                     calculateCost (estimatedTokens : ℚ) ((estimatedTokens : ℚ) * (2/10))⟩
                  (analyzed ++ issueEvents ++
                     [.complete
                        ⟨priority, files.length, allIssues.length, totalTokens,
                         totalCost, some est⟩],
                   efs ++ efs2 ++ efs3 ++ efs4, c3)
              else
                (analyzed ++ issueEvents ++
                   [.complete
                      ⟨priority, files.length, allIssues.length, totalTokens,
                       totalCost, none⟩],
                 efs ++ efs2 ++ efs3, c2)

/-! ## Event predicates and structural lemmas -/

/-- Is the event a `status` or `file` event (the fetch-phase events)? -/
def isStatusFile : Event → Bool
  | .status _ _ _ _ => true
  | .file _ _ _ => true
  | _ => false

/-- Is the event an `issue` event? -/
def isIssueEv : Event → Bool
  | .issue _ => true
  | _ => false

/-- Is the event a `complete` event? -/
def isCompleteEv : Event → Bool
  | .complete _ => true
  | _ => false

/-- Is the event an `error` event? -/
def isErrorEv : Event → Bool
  | .error _ _ _ => true
  | _ => false

/-- Did the `Except` succeed? -/
def exceptOk {ε α : Type _} : Except ε α → Bool
  | .ok _ => true
  | .error _ => false

/-- The retryable/code discipline of the emitted error events: `retryable`
is true exactly for code `RATE_LIMITED`, and that code only arises from a
caught message containing `rate limit` but not `API key`. -/
def errCodeOk (m c : String) (ret : Bool) : Prop :=
  (ret = true ↔ c = "RATE_LIMITED") ∧
    (c = "RATE_LIMITED" → jsIncludes m "rate limit" = true ∧ jsIncludes m "API key" = false)

/-- A legitimate final event of a run: a `complete` event, or an `error`
event obeying `errCodeOk`. -/
def isTerminalOk (e : Event) : Prop :=
  (∃ d, e = Event.complete d) ∨ ∃ m c ret, e = Event.error m c ret ∧ errCodeOk m c ret

theorem errCodeOk_not_rl (m c : String) (hc : c ≠ "RATE_LIMITED") :
    errCodeOk m c false :=
  ⟨iff_of_false (by simp) hc, fun h => absurd h hc⟩

theorem isTerminalOk_classifyCatch (m : String) : isTerminalOk (classifyCatch m) := by
  unfold classifyCatch
  by_cases h1 : jsIncludes m "API key" = true
  · exact Or.inr ⟨m, "INVALID_API_KEY", false, by simp [h1],
      errCodeOk_not_rl m "INVALID_API_KEY" (by decide)⟩
  · by_cases h2 : jsIncludes m "rate limit" = true
    · refine Or.inr ⟨m, "RATE_LIMITED", true, by simp [h1, h2], ?_, fun _ => ⟨h2, ?_⟩⟩
      · exact iff_of_true rfl rfl
      · simpa using h1
    · exact Or.inr ⟨"Analysis failed: " ++ m, "ANALYSIS_ERROR", false, by simp [h1, h2],
        errCodeOk_not_rl ("Analysis failed: " ++ m) "ANALYSIS_ERROR" (by decide)⟩

theorem progToEvents_statusFile (priority : Nat) (prog : List (Nat × Nat × String)) :
    ∀ e ∈ progToEvents priority prog, isStatusFile e = true := by
  intro e he
  simp only [progToEvents, List.mem_flatMap] at he
  obtain ⟨p, -, hp⟩ := he
  simp only [List.mem_cons, List.mem_singleton] at hp
  rcases hp with h | h | h
  · simp [h, isStatusFile]
  · simp [h, isStatusFile]
  · exact absurd h (by simp)

theorem map_fileEvent_statusFile (files : List FileContent) (priority : Nat) :
    ∀ e ∈ files.map fun f => Event.file f.path priority .complete,
      isStatusFile e = true := by
  intro e he
  simp only [List.mem_map] at he
  obtain ⟨f, -, hf⟩ := he
  simp [← hf, isStatusFile]

theorem streamLoop_events_are_issues (s : List StreamEvent) :
    ∃ B : List AnalysisIssue, (streamLoop s).1 = B.map Event.issue := by
  induction s with
  | nil => exact ⟨[], rfl⟩
  | cons e rest ih =>
    obtain ⟨B, hB⟩ := ih
    cases e with
    | chunk _ => exact ⟨B, by simpa [streamLoop] using hB⟩
    | complete issues inT outT cost =>
      exact ⟨issues ++ B, by simp [streamLoop, hB]⟩

theorem streamLoop_chunks_complete (issues : List AnalysisIssue)
    (inT outT : Nat) (cost : ℚ) :
    ∀ frs : List String,
      streamLoop (frs.map StreamEvent.chunk ++ [.complete issues inT outT cost]) =
        (issues.map Event.issue, issues, inT, outT) := by
  intro frs
  induction frs with
  | nil => simp [streamLoop, hasCompleteEv]
  | cons f rest ih => simpa [streamLoop] using ih

theorem all_statusFile_append {l₁ l₂ : List Event}
    (h₁ : ∀ e ∈ l₁, isStatusFile e = true) (h₂ : ∀ e ∈ l₂, isStatusFile e = true) :
    ∀ e ∈ l₁ ++ l₂, isStatusFile e = true := by
  intro e he
  rcases List.mem_append.1 he with h | h
  exacts [h₁ e h, h₂ e h]

theorem all_statusFile_pre (priority : Nat) :
    ∀ e ∈ [statusValidating, statusScanning priority], isStatusFile e = true := by
  intro e he
  simp only [List.mem_cons, List.not_mem_nil, or_false] at he
  rcases he with rfl | rfl <;> rfl

/-- Structure of every event list produced by `analyzeRepositoryM`: a block
of `status`/`file` events, then a block of `issue` events, then exactly one
terminal event — a `complete` event or an `error` event obeying
`errCodeOk`. -/
theorem analyzeRepositoryM_shape (w : World) (cache : FileTreeCache) (url : String)
    (priority : Nat) (tok : Option String) :
    ∃ (A : List Event) (B : List AnalysisIssue) (t : Event),
      (analyzeRepositoryM w cache url priority tok).1 =
          A ++ B.map Event.issue ++ [t] ∧
        (∀ e ∈ A, isStatusFile e = true) ∧ isTerminalOk t := by
  unfold analyzeRepositoryM
  rcases hp : parseGitHubUrl url with _ | ⟨ow, rp⟩ <;> simp only [hp]
  · exact ⟨[], [], .error "Invalid GitHub URL format" "INVALID_URL" false, by simp,
      by simp, Or.inr ⟨_, _, _, rfl, errCodeOk_not_rl _ _ (by decide)⟩⟩
  rcases hv : validateRepoM w ow rp with ⟨vm | vinfo, vefs⟩ <;> simp only [hv]
  · refine ⟨[statusValidating], [], .error vm "REPO_NOT_FOUND" false, by simp, ?_,
      Or.inr ⟨_, _, _, rfl, errCodeOk_not_rl _ _ (by decide)⟩⟩
    intro e he
    simp only [List.mem_singleton] at he
    simp [he, statusValidating, isStatusFile]
  by_cases hg : (vinfo.isPrivate && tok.isNone) = true
  · simp only [if_pos hg]
    refine ⟨[statusValidating], [],
      .error "Private repositories require login" "PRIVATE_REPO" false, by simp, ?_,
      Or.inr ⟨_, _, _, rfl, errCodeOk_not_rl _ _ (by decide)⟩⟩
    intro e he
    simp only [List.mem_singleton] at he
    simp [he, statusValidating, isStatusFile]
  simp only [if_neg hg]
  rcases hf : getFilesForPriorityM w cache ow rp priority MAX_FILES_PER_PRIORITY with
    ⟨fm | ⟨files, totM⟩, efs2, c2, prog⟩ <;> simp only [hf]
  · exact ⟨[statusValidating, statusScanning priority], [], classifyCatch fm, by simp,
      all_statusFile_pre priority, isTerminalOk_classifyCatch fm⟩
  by_cases hz : (files.length == 0) = true
  · simp only [if_pos hz]
    refine ⟨[statusValidating, statusScanning priority] ++ progToEvents priority prog ++
        [.status ("No files found for Priority " ++ toString priority) 0 0 none],
      [], .complete ⟨priority, 0, 0, 0, 0, none⟩, by simp, ?_,
      Or.inl ⟨_, rfl⟩⟩
    refine all_statusFile_append (all_statusFile_append (all_statusFile_pre priority)
      (progToEvents_statusFile priority prog)) ?_
    intro e he
    simp only [List.mem_singleton] at he
    simp [he, isStatusFile]
  simp only [if_neg hz]
  have hA : ∀ e ∈ ([statusValidating, statusScanning priority] ++
      progToEvents priority prog ++
      (files.map fun f => Event.file f.path priority FileEvStatus.complete)) ++
      [Event.status ("Analyzing " ++ toString files.length ++ " files with AI...")
        files.length files.length none],
      isStatusFile e = true := by
    refine all_statusFile_append (all_statusFile_append (all_statusFile_append
      (all_statusFile_pre priority) (progToEvents_statusFile priority prog))
      (map_fileEvent_statusFile files priority)) ?_
    intro e he
    simp only [List.mem_singleton] at he
    simp [he, isStatusFile]
  rcases hs : streamAnalysisM w files priority with ⟨sm | sevents, efs3⟩ <;> simp only [hs]
  · exact ⟨_, [], classifyCatch sm, by simp, hA, isTerminalOk_classifyCatch sm⟩
  obtain ⟨B, hB⟩ := streamLoop_events_are_issues sevents
  by_cases hlt : priority < 3
  · simp only [if_pos hlt]
    rcases hf2 : getFilesForPriorityM w c2 ow rp (priority + 1) MAX_FILES_PER_PRIORITY with
      ⟨fm2 | ⟨nf, nt⟩, efs4, c3, prog2⟩ <;> simp only [hf2]
    · exact ⟨_, B, classifyCatch fm2, by rw [hB], hA, isTerminalOk_classifyCatch fm2⟩
    · exact ⟨_, B, _, by rw [hB], hA, Or.inl ⟨_, rfl⟩⟩
  · simp only [if_neg hlt]
    exact ⟨_, B, _, by rw [hB], hA, Or.inl ⟨_, rfl⟩⟩

/-! ## Event-ordering relation (claim C8) -/

/-- The per-pair ordering discipline claimed for one tier's event stream:
once an `issue` event has been emitted no later event is a `status`/`file`
event, and once a `complete` event has been emitted no later event is an
`issue` event. -/
def orderR (a b : Event) : Prop :=
  (isIssueEv a = true → isStatusFile b = false) ∧
    (isCompleteEv a = true → isIssueEv b = false)

theorem orderR_of_statusFile {a : Event} (ha : isStatusFile a = true) (b : Event) :
    orderR a b := by
  refine ⟨fun hi => ?_, fun hc => ?_⟩ <;> cases a <;> simp_all [isStatusFile, isIssueEv, isCompleteEv]

theorem orderR_issue_issue (x y : AnalysisIssue) : orderR (.issue x) (.issue y) :=
  ⟨fun _ => rfl, fun h => by simp [isCompleteEv] at h⟩

theorem orderR_issue_terminal {t : Event} (ht : isTerminalOk t) (x : AnalysisIssue) :
    orderR (.issue x) t := by
  rcases ht with ⟨d, rfl⟩ | ⟨m, c, r, rfl, -⟩ <;>
    exact ⟨fun _ => rfl, fun h => by simp [isCompleteEv] at h⟩

theorem pairwise_of_forall_left {α : Type _} {R : α → α → Prop} :
    ∀ {l : List α}, (∀ a ∈ l, ∀ b, R a b) → l.Pairwise R
  | [], _ => .nil
  | x :: xs, h =>
    .cons (fun b _ => h x (by simp) b)
      (pairwise_of_forall_left fun a ha b => h a (List.mem_cons_of_mem x ha) b)

theorem pairwise_of_forall_mem {α : Type _} {R : α → α → Prop} :
    ∀ {l : List α}, (∀ a ∈ l, ∀ b ∈ l, R a b) → l.Pairwise R
  | [], _ => .nil
  | x :: xs, h =>
    .cons (fun b hb => h x (by simp) b (List.mem_cons_of_mem x hb))
      (pairwise_of_forall_mem fun a ha b hb =>
        h a (List.mem_cons_of_mem x ha) b (List.mem_cons_of_mem x hb))

/-! ## Gateway lemmas -/

/-- Is the effect a tree-listing call? -/
def isTreeCall : Effect → Bool
  | .treeCall _ _ => true
  | _ => false

theorem fetchLoop_contents_length (w : World) (total : Nat) :
    ∀ (ps : List String) (k : Nat),
      (fetchLoop w total ps k).1.length =
        ps.countP fun p => exceptOk (getFileContentM w p) := by
  intro ps
  induction ps with
  | nil => intro k; simp [fetchLoop]
  | cons p rest ih =>
    intro k
    cases h : getFileContentM w p <;>
      simp [fetchLoop, h, ih (k + 1), List.countP_cons, exceptOk]

theorem fetchLoop_prog_paths (w : World) (total : Nat) :
    ∀ (ps : List String) (k : Nat),
      ((fetchLoop w total ps k).2.2.map fun x => x.2.2) = ps := by
  intro ps
  induction ps with
  | nil => intro k; simp [fetchLoop]
  | cons p rest ih =>
    intro k
    cases h : getFileContentM w p <;> simp [fetchLoop, h, ih (k + 1)]

theorem fetchLoop_effects (w : World) (total : Nat) :
    ∀ (ps : List String) (k : Nat),
      (fetchLoop w total ps k).2.1 = ps.map Effect.contentCall := by
  intro ps
  induction ps with
  | nil => intro k; simp [fetchLoop]
  | cons p rest ih =>
    intro k
    cases h : getFileContentM w p <;> simp [fetchLoop, h, ih (k + 1)]

theorem getFilesContentsM_effects (w : World) (paths : List String) (maxFiles : Nat) :
    (getFilesContentsM w paths maxFiles).2.1 =
      (paths.take maxFiles).map Effect.contentCall :=
  fetchLoop_effects w (paths.take maxFiles).length (paths.take maxFiles) 0

theorem lookupCache_filter_self (cache : FileTreeCache) (key : String) :
    lookupCache (cache.filter fun kv => !(kv.1 == key)) key = none := by
  induction cache with
  | nil => rfl
  | cons kv rest ih =>
    cases h : kv.1 == key <;> simp [List.filter_cons, h, lookupCache, ih]

theorem lookup_setCache_self (cache : FileTreeCache) (key : String)
    (v : List FileEntry × Nat) :
    lookupCache (setCache cache key v) key = some v := by
  simp [setCache, lookupCache]

/-- A cache entry younger than the TTL is served as-is: no network calls,
cache unchanged. -/
theorem getFileTreeM_cache_hit (w : World) (cache : FileTreeCache)
    (owner repo : String) (branch : Option String) (d : List FileEntry) (ts : Nat)
    (hlook : lookupCache cache (treeKey owner repo branch) = some (d, ts))
    (hfresh : w.nowMs - ts < CACHE_TTL) :
    getFileTreeM w cache owner repo branch = (.ok d, [], cache) := by
  unfold getFileTreeM
  simp [hlook, if_pos hfresh]

/-- The result and effect trace of the cache-miss path do not depend on the
cache contents (the cache is only written). -/
theorem fetchTreeFresh_cache_independent (w : World) (owner repo : String)
    (branch : Option String) (key : String) (cache cache' : FileTreeCache) :
    (fetchTreeFresh w owner repo branch key cache).1 =
        (fetchTreeFresh w owner repo branch key cache').1 ∧
      (fetchTreeFresh w owner repo branch key cache).2.1 =
        (fetchTreeFresh w owner repo branch key cache').2.1 := by
  unfold fetchTreeFresh fetchTreeCall validateRepoM
  cases branch with
  | some b => rcases ht : treeCallResult w owner repo with m | fs <;> simp [ht]
  | none =>
    rcases hr : repoGetResult w owner repo with m | i <;> simp only [hr] <;>
      [skip; rcases ht : treeCallResult w owner repo with m2 | fs] <;> simp [*]

/-- A resolvable cache-miss fetch issues exactly one tree-listing call. -/
theorem fetchTreeFresh_treeCall_count (w : World) (owner repo : String)
    (branch : Option String) (key : String) (cache : FileTreeCache)
    (hres : (branch.isSome || exceptOk (repoGetResult w owner repo)) = true) :
    ((fetchTreeFresh w owner repo branch key cache).2.1.countP fun e => isTreeCall e)
      = 1 := by
  unfold fetchTreeFresh fetchTreeCall validateRepoM
  cases branch with
  | some b =>
    rcases ht : treeCallResult w owner repo with m | fs <;>
      simp [ht, List.countP_cons, isTreeCall]
  | none =>
    rcases hr : repoGetResult w owner repo with m | i
    · simp [hr, exceptOk] at hres
    · rcases ht : treeCallResult w owner repo with m2 | fs <;>
        simp [hr, ht, List.countP_cons, List.countP_append, isTreeCall]

/-- A successful cache-miss fetch writes exactly the fetched entries,
stamped `Date.now()`, into the cache. -/
theorem fetchTreeFresh_ok_cache {w : World} {owner repo : String}
    {branch : Option String} {key : String} {cache : FileTreeCache}
    {files : List FileEntry} {efs : List Effect} {c2 : FileTreeCache}
    (h : fetchTreeFresh w owner repo branch key cache = (.ok files, efs, c2)) :
    c2 = setCache cache key (files, w.nowMs) := by
  unfold fetchTreeFresh fetchTreeCall validateRepoM at h
  cases branch with
  | some b =>
    rcases ht : treeCallResult w owner repo with m | fs <;> rw [ht] at h <;>
      simp at h
    obtain ⟨h1, -, h3⟩ := h
    rw [← h3, h1]
  | none =>
    rcases hr : repoGetResult w owner repo with m | i <;> rw [hr] at h <;> simp at h
    rcases ht : treeCallResult w owner repo with m2 | fs <;> rw [ht] at h <;> simp at h
    obtain ⟨h1, -, h3⟩ := h
    rw [← h3, h1]

/-- After a successful `getFileTree`, an immediate second call with the
returned cache is a cache hit: same entries, zero network calls. -/
theorem getFileTreeM_idem (w : World) (cache : FileTreeCache) (owner repo : String)
    (files : List FileEntry) (efs : List Effect) (c2 : FileTreeCache)
    (h : getFileTreeM w cache owner repo none = (.ok files, efs, c2)) :
    getFileTreeM w c2 owner repo none = (.ok files, [], c2) := by
  have httl : (0 : Nat) < CACHE_TTL := by decide
  unfold getFileTreeM at h ⊢
  rcases hl : lookupCache cache (treeKey owner repo none) with _ | ⟨d, ts⟩
  · simp only [hl] at h
    have hc2 := fetchTreeFresh_ok_cache h
    rw [hc2, lookup_setCache_self]
    simp [Nat.sub_self, httl, ← hc2]
  · simp only [hl] at h
    by_cases hfr : w.nowMs - ts < CACHE_TTL
    · rw [if_pos hfr] at h
      simp only [Prod.mk.injEq] at h
      obtain ⟨h1, -, h3⟩ := h
      rw [← h3]
      simp only [hl, if_pos hfr, Prod.mk.injEq]
      refine ⟨h1, ?_⟩
      trivial
    · rw [if_neg hfr] at h
      have hc2 := fetchTreeFresh_ok_cache h
      rw [hc2, lookup_setCache_self]
      simp [Nat.sub_self, httl, ← hc2]

/-- A successful `getFilesForPriority` leaves the tree cached: re-running
it (for any priority) with the returned cache succeeds with zero tree
calls and an unchanged cache. -/
theorem getFilesForPriorityM_second_ok (w : World) (cache : FileTreeCache)
    (owner repo : String) (priority maxFiles : Nat) (files : List FileContent)
    (tm : Nat) (efs2 : List Effect) (c2 : FileTreeCache)
    (prog : List (Nat × Nat × String))
    (hf : getFilesForPriorityM w cache owner repo priority maxFiles =
      (.ok (files, tm), efs2, c2, prog))
    (priority' maxFiles' : Nat) :
    ∃ files' tm' efs' prog',
      getFilesForPriorityM w c2 owner repo priority' maxFiles' =
        (.ok (files', tm'), efs', c2, prog') := by
  unfold getFilesForPriorityM at hf
  rcases hgt : getFileTreeM w cache owner repo none with ⟨gm | gfs, gefs, gc⟩ <;>
    rw [hgt] at hf <;> simp only [Prod.mk.injEq] at hf
  · exact absurd hf.1 (by simp)
  · obtain ⟨-, -, hgc, -⟩ := hf
    have hidem := getFileTreeM_idem w cache owner repo gfs gefs c2 (by rw [hgt, hgc])
    refine ⟨(getFilesContentsM w (filterFilesByPriority (gfs.map fun f => f.path)
        priority') maxFiles').1,
      (filterFilesByPriority (gfs.map fun f => f.path) priority').length,
      [] ++ (getFilesContentsM w (filterFilesByPriority (gfs.map fun f => f.path)
        priority') maxFiles').2.1,
      (getFilesContentsM w (filterFilesByPriority (gfs.map fun f => f.path)
        priority') maxFiles').2.2, ?_⟩
    unfold getFilesForPriorityM
    rw [hidem]

theorem fetchTreeFresh_no_aiCall (w : World) (owner repo : String)
    (branch : Option String) (key : String) (cache : FileTreeCache) (n : Nat) :
    Effect.aiCall n ∉ (fetchTreeFresh w owner repo branch key cache).2.1 := by
  unfold fetchTreeFresh fetchTreeCall validateRepoM
  cases branch with
  | some b => rcases ht : treeCallResult w owner repo with m | fs <;> simp [ht]
  | none =>
    rcases hr : repoGetResult w owner repo with m | i <;> simp only [hr] <;>
      [skip; rcases ht : treeCallResult w owner repo with m2 | fs] <;> simp [*]

theorem getFileTreeM_no_aiCall (w : World) (cache : FileTreeCache)
    (owner repo : String) (branch : Option String) (n : Nat) :
    Effect.aiCall n ∉ (getFileTreeM w cache owner repo branch).2.1 := by
  unfold getFileTreeM
  rcases hl : lookupCache cache (treeKey owner repo branch) with _ | ⟨d, ts⟩
  · simpa using fetchTreeFresh_no_aiCall w owner repo branch _ cache n
  · by_cases hfr : w.nowMs - ts < CACHE_TTL
    · simp [hfr]
    · simpa [hfr] using fetchTreeFresh_no_aiCall w owner repo branch _ cache n

theorem getFilesForPriorityM_no_aiCall (w : World) (cache : FileTreeCache)
    (owner repo : String) (priority maxFiles : Nat) (n : Nat) :
    Effect.aiCall n ∉ (getFilesForPriorityM w cache owner repo priority maxFiles).2.1 := by
  unfold getFilesForPriorityM
  rcases hgt : getFileTreeM w cache owner repo none with ⟨gm | gfs, gefs, gc⟩
  · have := getFileTreeM_no_aiCall w cache owner repo none n
    rw [hgt] at this
    simpa using this
  · have hg := getFileTreeM_no_aiCall w cache owner repo none n
    rw [hgt] at hg
    intro hmem
    simp only [List.mem_append] at hmem
    rcases hmem with h | h
    · exact hg h
    · rw [getFilesContentsM_effects] at h
      simp only [List.mem_map] at h
      obtain ⟨path, -, hcc⟩ := h
      exact absurd hcc (by simp)

/-- The fetch-phase prefix of an analyzing tier consists of `status` and
`file` events only. -/
theorem analyzed_statusFile (priority : Nat) (prog : List (Nat × Nat × String))
    (files : List FileContent) :
    ∀ e ∈ ([statusValidating, statusScanning priority] ++ progToEvents priority prog ++
        (files.map fun f => Event.file f.path priority FileEvStatus.complete)) ++
        [Event.status ("Analyzing " ++ toString files.length ++ " files with AI...")
          files.length files.length none],
      isStatusFile e = true := by
  refine all_statusFile_append (all_statusFile_append (all_statusFile_append
    (all_statusFile_pre priority) (progToEvents_statusFile priority prog))
    (map_fileEvent_statusFile files priority)) ?_
  intro e he
  simp only [List.mem_singleton] at he
  simp [he, isStatusFile]

theorem statusFile_not_error_issue (e : Event) (h : isStatusFile e = true) :
    isErrorEv e = false ∧ isIssueEv e = false := by
  cases e <;> simp_all [isStatusFile, isErrorEv, isIssueEv]

theorem getLast?_append_singleton {α : Type _} (l : List α) (a : α) :
    (l ++ [a]).getLast? = some a :=
  List.getLast?_concat l

/-! ## Claim theorems -/

/-- C1: `getFilePriority` evaluates the four ordered pattern lists with
first-match-wins in the fixed order Ignore, Tier1, Tier2, Tier3: a path
matching any Ignore pattern is classified `none` (Ignored) regardless of
tier matches; otherwise the result is the head of the ascending list of
matching tiers — i.e. the numerically lowest matching tier (lowest-tier
wins) — and a path matching none of the four lists is `none`, never a
default tier. -/
theorem c1_classifier_first_match_lowest_tier (path : String) :
    getFilePriority path =
      if shouldIgnoreFile path then none else (matchedTiers path).head? := by
  cases hI : shouldIgnoreFile path <;>
    cases h1 : matchesAnyPattern path PRIORITY_1_PATTERNS <;>
      cases h2 : matchesAnyPattern path PRIORITY_2_PATTERNS <;>
        cases h3 : matchesAnyPattern path PRIORITY_3_PATTERNS <;>
          simp [getFilePriority, matchedTiers, tierPatterns, hI, h1, h2, h3]

/-- C9: `calculateCost 0 0 = 0`, and `calculateCost` is additive on
non-negative token counts. -/
theorem c9_calculateCost_zero_additive :
    calculateCost 0 0 = 0 ∧
      ∀ a b c d : ℚ, 0 ≤ a → 0 ≤ b → 0 ≤ c → 0 ≤ d →
        calculateCost (a + c) (b + d) = calculateCost a b + calculateCost c d := by
  refine ⟨by simp [calculateCost], fun a b c d _ _ _ _ => ?_⟩
  unfold calculateCost
  ring

/-- Witness for C9 at the concrete token counts (10, 20) and (30, 40). -/
theorem c9_calculateCost_zero_additive_witness :
    (0:ℚ) ≤ 10 ∧ (0:ℚ) ≤ 20 ∧ (0:ℚ) ≤ 30 ∧ (0:ℚ) ≤ 40 ∧
      calculateCost (10 + 30) (20 + 40) = calculateCost 10 20 + calculateCost 30 40 :=
  ⟨by norm_num, by norm_num, by norm_num, by norm_num,
    c9_calculateCost_zero_additive.2 10 20 30 40 (by norm_num) (by norm_num)
      (by norm_num) (by norm_num)⟩

/-- C8: within one tier's stream, every `status`/`file` event strictly
precedes every `issue` event, and every `issue` event strictly precedes the
tier's `complete` event — stated as pairwise ordering of the whole event
list produced by `analyzeRepositoryM`: for any earlier/later pair, an
`issue` is never followed by a `status`/`file` event and a `complete` is
never followed by an `issue`. -/
theorem c8_event_order (w : World) (cache : FileTreeCache) (url : String)
    (priority : Nat) (tok : Option String) :
    ((analyzeRepositoryM w cache url priority tok).1).Pairwise orderR := by
  obtain ⟨A, B, t, heq, hA, ht⟩ := analyzeRepositoryM_shape w cache url priority tok
  rw [heq]
  refine List.pairwise_append.2 ⟨List.pairwise_append.2 ⟨?_, ?_, ?_⟩, ?_, ?_⟩
  · exact pairwise_of_forall_left fun a ha b => orderR_of_statusFile (hA a ha) b
  · refine pairwise_of_forall_mem fun a ha b hb => ?_
    simp only [List.mem_map] at ha hb
    obtain ⟨x, -, rfl⟩ := ha
    obtain ⟨y, -, rfl⟩ := hb
    exact orderR_issue_issue x y
  · exact fun a ha b _ => orderR_of_statusFile (hA a ha) b
  · exact List.pairwise_singleton orderR t
  · intro a ha b hb
    simp only [List.mem_singleton] at hb
    rw [hb]
    rcases List.mem_append.1 ha with h | h
    · exact orderR_of_statusFile (hA a h) t
    · simp only [List.mem_map] at h
      obtain ⟨x, -, rfl⟩ := h
      exact orderR_issue_terminal ht x

/-- Claim C3 as stated: across all runs, an emitted `error` event is
retryable exactly when its failure is a rate-limit condition — identified,
per the fixed message set of the sources, by the message containing
`rate limit` (the hosting-provider 403 message and the AI-service 429
message, and no other message produced by the services). -/
def statedC3 : Prop :=
  ∀ (w : World) (cache : FileTreeCache) (url : String) (priority : Nat)
    (tok : Option String) (m c : String) (ret : Bool),
    Event.error m c ret ∈ (analyzeRepositoryM w cache url priority tok).1 →
    (ret = true ↔ jsIncludes m "rate limit" = true)

/-- A world in which the repository metadata request is rejected with
HTTP 403 (the hosting provider's rate limit). -/
def rateLimitedWorld : World :=
  { repoGet := .error (403, "rate limited"),
    treeGet := .error (403, ""),
    contentGet := fun _ => .error "unreachable",
    aiResult := .error (500, ""),
    parseJson := fun _ => none,
    nowMs := 0 }

/-- Counterexample to C3 as stated: when the hosting provider rate-limits
the initial `validateRepo` call (HTTP 403), the inner catch at
`analysisService.ts` line 108 emits the rate-limit message with code
`REPO_NOT_FOUND` and `retryable = false`. -/
theorem c3_counterexample : ¬ statedC3 := by
  intro h
  have hrun : (analyzeRepositoryM rateLimitedWorld [] "https://github.com/acme/demo" 1
      none).1 =
      [statusValidating,
       Event.error "GitHub API rate limit exceeded. Try again later or add a GITHUB_TOKEN."
         "REPO_NOT_FOUND" false] := rfl
  have hmem : Event.error
      "GitHub API rate limit exceeded. Try again later or add a GITHUB_TOKEN."
      "REPO_NOT_FOUND" false ∈
      (analyzeRepositoryM rateLimitedWorld [] "https://github.com/acme/demo" 1 none).1 := by
    rw [hrun]
    exact List.mem_cons_of_mem _ (List.mem_singleton.2 rfl)
  have hiff := h rateLimitedWorld [] "https://github.com/acme/demo" 1 none _ _ _ hmem
  have : False := by
    have := hiff.2 (by decide)
    exact Bool.noConfusion this
  exact this

/-- C3 (amended): an emitted `error` event is retryable exactly when its
code is `RATE_LIMITED`, and that code arises only for failures reaching the
generic catch handler with a message containing `rate limit` but not
`API key` (the hosting-provider rate limit during the tree fetch, or the
AI-service HTTP 429).  A hosting-provider rate limit during the initial
repository validation is instead emitted with code `REPO_NOT_FOUND` and
`retryable = false` (see `c3_counterexample`). -/
theorem c3_error_retryable_amended (w : World) (cache : FileTreeCache) (url : String)
    (priority : Nat) (tok : Option String) (m c : String) (ret : Bool)
    (hmem : Event.error m c ret ∈ (analyzeRepositoryM w cache url priority tok).1) :
    (ret = true ↔ c = "RATE_LIMITED") ∧
      (c = "RATE_LIMITED" →
        jsIncludes m "rate limit" = true ∧ jsIncludes m "API key" = false) := by
  obtain ⟨A, B, t, heq, hA, ht⟩ := analyzeRepositoryM_shape w cache url priority tok
  rw [heq] at hmem
  rcases List.mem_append.1 hmem with h | h
  · rcases List.mem_append.1 h with h | h
    · simpa [isStatusFile] using hA _ h
    · simp only [List.mem_map] at h
      obtain ⟨x, -, hx⟩ := h
      exact absurd hx (by simp)
  · simp only [List.mem_singleton] at h
    rcases ht with ⟨d, htc⟩ | ⟨m', c', r', hte, hok⟩
    · rw [htc] at h
      exact absurd h (by simp)
    · rw [hte] at h
      obtain ⟨rfl, rfl, rfl⟩ : m = m' ∧ c = c' ∧ ret = r' := by
        simpa using h
      exact hok

/-- Witness for the amended C3 at a concrete run: a repository-not-found
failure is emitted with code `REPO_NOT_FOUND`, `retryable = false`. -/
theorem c3_error_retryable_amended_witness :
    ((false = true) ↔ ("REPO_NOT_FOUND" = "RATE_LIMITED")) ∧
      ("REPO_NOT_FOUND" = "RATE_LIMITED" →
        jsIncludes "Repository not found: acme/demo" "rate limit" = true ∧
          jsIncludes "Repository not found: acme/demo" "API key" = false) :=
  c3_error_retryable_amended
    { rateLimitedWorld with repoGet := .error (404, "") } [] "https://github.com/acme/demo"
    1 none "Repository not found: acme/demo" "REPO_NOT_FOUND" false
    (by
      rw [show (analyzeRepositoryM { rateLimitedWorld with repoGet := .error (404, "") } []
          "https://github.com/acme/demo" 1 none).1 =
          [statusValidating,
           Event.error "Repository not found: acme/demo" "REPO_NOT_FOUND" false] from rfl]
      exact List.mem_cons_of_mem _ (List.mem_singleton.2 rfl))

/-- C5: for `N ≤ maxFiles` paths of which exactly one fails to fetch,
`getFilesContents` returns `N - 1` fetched files, invokes the progress
callback exactly once per path (in order), and the call itself returns
normally (it is a total function of the per-file outcomes: every per-file
error is swallowed). -/
theorem c5_single_failure_tolerated (w : World) (paths : List String) (maxFiles : Nat)
    (hlen : paths.length ≤ maxFiles)
    (hone : (paths.countP fun p => !(exceptOk (getFileContentM w p))) = 1) :
    (getFilesContentsM w paths maxFiles).1.length = paths.length - 1 ∧
      ((getFilesContentsM w paths maxFiles).2.2.map fun x => x.2.2) = paths := by
  have htake : paths.take maxFiles = paths := List.take_of_length_le hlen
  have h1 : getFilesContentsM w paths maxFiles = fetchLoop w paths.length paths 0 := by
    unfold getFilesContentsM
    rw [htake]
  rw [h1]
  constructor
  · rw [fetchLoop_contents_length]
    have hsplit := List.length_eq_countP_add_countP
      (fun p => exceptOk (getFileContentM w p)) paths
    have hco : (paths.countP fun a => decide ¬(exceptOk (getFileContentM w a) = true)) =
        paths.countP fun p => !(exceptOk (getFileContentM w p)) := by
      refine List.countP_congr fun a _ => ?_
      cases exceptOk (getFileContentM w a) <;> simp
    omega
  · rw [fetchLoop_prog_paths]

/-- A world in which fetching `b.ts` fails and everything else succeeds. -/
def c5World : World :=
  { repoGet := .error (500, ""),
    treeGet := .error (500, ""),
    contentGet := fun p => if p == "b.ts" then .error "boom" else .ok ("let x = 1", 9),
    aiResult := .error (500, ""),
    parseJson := fun _ => none,
    nowMs := 0 }

/-- Witness for C5 with three paths of which exactly `b.ts` fails. -/
theorem c5_single_failure_tolerated_witness :
    (["a.ts", "b.ts", "c.ts"] : List String).length ≤ 20 ∧
      ((["a.ts", "b.ts", "c.ts"] : List String).countP fun p =>
        !(exceptOk (getFileContentM c5World p))) = 1 ∧
      ((getFilesContentsM c5World ["a.ts", "b.ts", "c.ts"] 20).1.length =
          (["a.ts", "b.ts", "c.ts"] : List String).length - 1 ∧
        ((getFilesContentsM c5World ["a.ts", "b.ts", "c.ts"] 20).2.2.map
            fun x => x.2.2) = ["a.ts", "b.ts", "c.ts"]) :=
  ⟨by decide, by decide,
    c5_single_failure_tolerated c5World ["a.ts", "b.ts", "c.ts"] 20 (by decide) (by decide)⟩

/-- C6: for a cached (owner, name, branch) key, a call while the entry is
younger than the 5-minute TTL returns the cached tree with zero network
calls and an unchanged cache; once the entry has reached the TTL it is
never served — the call behaves (in result and network calls) exactly as
if the entry were absent, and (when the branch is resolvable) issues
exactly one tree-listing call. -/
theorem c6_cache_ttl (w : World) (cache : FileTreeCache) (owner repo : String)
    (branch : Option String) (d : List FileEntry) (ts : Nat)
    (hlook : lookupCache cache (treeKey owner repo branch) = some (d, ts)) :
    (w.nowMs - ts < CACHE_TTL →
        getFileTreeM w cache owner repo branch = (.ok d, [], cache)) ∧
      (CACHE_TTL ≤ w.nowMs - ts →
        ((getFileTreeM w cache owner repo branch).1 =
            (getFileTreeM w
              (cache.filter fun kv => !(kv.1 == treeKey owner repo branch))
              owner repo branch).1 ∧
          (getFileTreeM w cache owner repo branch).2.1 =
            (getFileTreeM w
              (cache.filter fun kv => !(kv.1 == treeKey owner repo branch))
              owner repo branch).2.1) ∧
        ((branch.isSome || exceptOk (repoGetResult w owner repo)) = true →
          ((getFileTreeM w cache owner repo branch).2.1.countP
            fun e => isTreeCall e) = 1)) := by
  constructor
  · intro hfresh
    exact getFileTreeM_cache_hit w cache owner repo branch d ts hlook hfresh
  · intro hstale
    have hnf : ¬(w.nowMs - ts < CACHE_TTL) := not_lt.2 hstale
    have hL : getFileTreeM w cache owner repo branch =
        fetchTreeFresh w owner repo branch (treeKey owner repo branch) cache := by
      unfold getFileTreeM
      simp [hlook, hnf]
    have hR : getFileTreeM w
        (cache.filter fun kv => !(kv.1 == treeKey owner repo branch))
        owner repo branch =
        fetchTreeFresh w owner repo branch (treeKey owner repo branch)
          (cache.filter fun kv => !(kv.1 == treeKey owner repo branch)) := by
      unfold getFileTreeM
      rw [lookupCache_filter_self]
    refine ⟨?_, ?_⟩
    · rw [hL, hR]
      exact fetchTreeFresh_cache_independent w owner repo branch
        (treeKey owner repo branch) cache
        (cache.filter fun kv => !(kv.1 == treeKey owner repo branch))
    · intro hres
      rw [hL]
      exact fetchTreeFresh_treeCall_count w owner repo branch
        (treeKey owner repo branch) cache hres

/-- The tree entries cached in the C6 witness. -/
def c6Entries : List FileEntry := [⟨"README.md", 10, "sha0"⟩]

/-- A cache holding `c6Entries` for `acme/demo/main`, stamped at t=500. -/
def c6Cache : FileTreeCache := [("acme/demo/main", (c6Entries, 500))]

/-- A world whose clock reads t=1000 (the cached entry is 500ms old). -/
def c6World : World :=
  { repoGet := .error (500, ""),
    treeGet := .error (500, ""),
    contentGet := fun _ => .error "",
    aiResult := .error (500, ""),
    parseJson := fun _ => none,
    nowMs := 1000 }

/-- Witness for C6 at a concrete cache entry (fresh at age 500ms). -/
theorem c6_cache_ttl_witness :
    (c6World.nowMs - 500 < CACHE_TTL →
        getFileTreeM c6World c6Cache "acme" "demo" (some "main") =
          (.ok c6Entries, [], c6Cache)) ∧
      (CACHE_TTL ≤ c6World.nowMs - 500 →
        ((getFileTreeM c6World c6Cache "acme" "demo" (some "main")).1 =
            (getFileTreeM c6World
              (c6Cache.filter fun kv => !(kv.1 == treeKey "acme" "demo" (some "main")))
              "acme" "demo" (some "main")).1 ∧
          (getFileTreeM c6World c6Cache "acme" "demo" (some "main")).2.1 =
            (getFileTreeM c6World
              (c6Cache.filter fun kv => !(kv.1 == treeKey "acme" "demo" (some "main")))
              "acme" "demo" (some "main")).2.1) ∧
        (((some "main" : Option String).isSome ||
            exceptOk (repoGetResult c6World "acme" "demo")) = true →
          ((getFileTreeM c6World c6Cache "acme" "demo" (some "main")).2.1.countP
            fun e => isTreeCall e) = 1)) :=
  c6_cache_ttl c6World c6Cache "acme" "demo" (some "main") c6Entries 500 rfl

/-- Claim C2 as stated: a tier-`n` run issues per-file content requests
only for tier-`n` files — in particular the tier-(n+1) estimate would
re-run only the listing and fetch no contents. -/
def statedC2 : Prop :=
  ∀ (w : World) (cache : FileTreeCache) (url : String) (priority : Nat)
    (tok : Option String) (path : String),
    Effect.contentCall path ∈ (analyzeRepositoryM w cache url priority tok).2.1 →
    getFilePriority path = some priority

/-- A repository with one tier-1 file (`.env`) and one tier-2 file
(`src/api/handler.ts`). -/
def estimateWorld : World :=
  { repoGet := .ok ⟨"", "", "acme/demo", none, 1, none, "2024", "main", false⟩,
    treeGet := .ok [⟨".env", "blob", some 8, "s1"⟩,
                    ⟨"src/api/handler.ts", "blob", some 10, "s2"⟩],
    contentGet := fun _ => .ok ("data", 4),
    aiResult := .ok ["not json"],
    parseJson := fun _ => none,
    nowMs := 1000 }

/-- Counterexample to C2 as stated: a tier-1 run of `analyzeRepository`
issues a content request for the tier-2 file `src/api/handler.ts` — the
next-tier estimate calls `getFilesForPriority`, which fetches contents, not
only the listing. -/
theorem c2_counterexample : ¬ statedC2 := by
  intro h
  have hmem : Effect.contentCall "src/api/handler.ts" ∈
      (analyzeRepositoryM estimateWorld [] "https://github.com/acme/demo" 1 none).2.1 := by
    rw [show (analyzeRepositoryM estimateWorld [] "https://github.com/acme/demo" 1
        none).2.1 =
      [Effect.metaCall "acme" "demo", Effect.metaCall "acme" "demo",
       Effect.treeCall "acme" "demo", Effect.contentCall ".env",
       Effect.aiCall 1, Effect.contentCall "src/api/handler.ts"] from rfl]
    decide
  have h2 := h estimateWorld [] "https://github.com/acme/demo" 1 none
    "src/api/handler.ts" hmem
  exact absurd h2 (by decide)

/-- C2 (amended): the tier-(n+1) estimate re-runs `getFilesForPriority`,
which serves the tree listing from the still-fresh cache (zero tree calls)
but issues one per-file content request for each tier-(n+1) path, up to
`maxFiles` — contents are fetched, not only the listing. -/
theorem c2_estimate_issues_content_requests (w : World) (cache : FileTreeCache)
    (owner repo : String) (priority maxFiles : Nat) (d : List FileEntry) (ts : Nat)
    (hlook : lookupCache cache (treeKey owner repo none) = some (d, ts))
    (hfresh : w.nowMs - ts < CACHE_TTL) :
    (getFilesForPriorityM w cache owner repo priority maxFiles).2.1 =
      ((filterFilesByPriority (d.map fun f => f.path) priority).take maxFiles).map
        Effect.contentCall := by
  have hhit := getFileTreeM_cache_hit w cache owner repo none d ts hlook hfresh
  unfold getFilesForPriorityM
  simp only [hhit, getFilesContentsM_effects, List.map_take, List.nil_append]

/-- The cache state after the C2 witness run's tier-1 fetch: the tree of
`estimateWorld` cached at t=900. -/
def c2HitCache : FileTreeCache :=
  [("acme/demo/default",
    ([⟨".env", 8, "s1"⟩, ⟨"src/api/handler.ts", 10, "s2"⟩], 900))]

/-- Witness for the amended C2: the tier-2 estimate re-run against the
fresh cache issues exactly the content request for the tier-2 path. -/
theorem c2_estimate_issues_content_requests_witness :
    (getFilesForPriorityM estimateWorld c2HitCache "acme" "demo" 2 20).2.1 =
      ((filterFilesByPriority
          (([⟨".env", 8, "s1"⟩, ⟨"src/api/handler.ts", 10, "s2"⟩] :
            List FileEntry).map fun f => f.path) 2).take 20).map
        Effect.contentCall :=
  c2_estimate_issues_content_requests estimateWorld c2HitCache "acme" "demo" 2 20
    [⟨".env", 8, "s1"⟩, ⟨"src/api/handler.ts", 10, "s2"⟩] 900 rfl (by decide)

/-- C4: a tier whose fetch phase yields zero files emits its `complete`
event with `filesScanned = 0`, `issuesFound = 0`, `tokensUsed = 0`,
`cost = 0` (and no next-tier estimate), and the run issues no AI call at
all. -/
theorem c4_zero_files_zero_complete_no_ai (w : World) (cache : FileTreeCache)
    (url : String) (priority : Nat) (tok : Option String) (ow rp : String)
    (info : RepoInfo) (vefs efs2 : List Effect) (c2 : FileTreeCache) (tm : Nat)
    (prog : List (Nat × Nat × String))
    (hp : parseGitHubUrl url = some (ow, rp))
    (hv : validateRepoM w ow rp = (.ok info, vefs))
    (hg : (info.isPrivate && tok.isNone) = false)
    (hf : getFilesForPriorityM w cache ow rp priority MAX_FILES_PER_PRIORITY =
      (.ok ([], tm), efs2, c2, prog)) :
    (analyzeRepositoryM w cache url priority tok).1 =
      [statusValidating, statusScanning priority] ++ progToEvents priority prog ++
        [.status ("No files found for Priority " ++ toString priority) 0 0 none,
         .complete ⟨priority, 0, 0, 0, 0, none⟩] ∧
      ∀ n, Effect.aiCall n ∉ (analyzeRepositoryM w cache url priority tok).2.1 := by
  have hrun : analyzeRepositoryM w cache url priority tok =
      ([statusValidating, statusScanning priority] ++ progToEvents priority prog ++
        [.status ("No files found for Priority " ++ toString priority) 0 0 none,
         .complete ⟨priority, 0, 0, 0, 0, none⟩],
       vefs ++ efs2, c2) := by
    unfold analyzeRepositoryM
    simp [hp, hv, hg, hf]
  constructor
  · rw [hrun]
  · intro n
    rw [hrun]
    show Effect.aiCall n ∉ vefs ++ efs2
    have hvefs : vefs = [Effect.metaCall ow rp] := by
      have h2 := congrArg Prod.snd hv
      simpa [validateRepoM] using h2.symm
    have hefs2 : Effect.aiCall n ∉ efs2 := by
      have h3 := getFilesForPriorityM_no_aiCall w cache ow rp priority
        MAX_FILES_PER_PRIORITY n
      rw [hf] at h3
      simpa using h3
    rw [hvefs]
    simp only [List.mem_append, List.mem_singleton]
    rintro (h | h)
    · simp at h
    · exact hefs2 h

/-- A repository whose three files are all ignorable `*.png` binaries. -/
def ignoredWorld : World :=
  { repoGet := .ok ⟨"", "", "acme/demo", none, 0, none, "2024", "main", false⟩,
    treeGet := .ok [⟨"a.png", "blob", some 1, "s1"⟩, ⟨"b.png", "blob", some 1, "s2"⟩,
                    ⟨"c.png", "blob", some 1, "s3"⟩],
    contentGet := fun _ => .ok ("", 0),
    aiResult := .error (500, ""),
    parseJson := fun _ => none,
    nowMs := 0 }

/-- Witness for C4: a tier-1 run over three `*.png` files emits the
zero-valued `complete` event and no AI call. -/
theorem c4_zero_files_zero_complete_no_ai_witness :
    (analyzeRepositoryM ignoredWorld [] "https://github.com/acme/demo" 1 none).1 =
      [statusValidating, statusScanning 1] ++ progToEvents 1 [] ++
        [.status ("No files found for Priority " ++ toString 1) 0 0 none,
         .complete ⟨1, 0, 0, 0, 0, none⟩] ∧
      ∀ n, Effect.aiCall n ∉
        (analyzeRepositoryM ignoredWorld [] "https://github.com/acme/demo" 1 none).2.1 :=
  c4_zero_files_zero_complete_no_ai ignoredWorld [] "https://github.com/acme/demo" 1 none
    "acme" "demo" ⟨"acme", "demo", "acme/demo", none, 0, none, "2024", "main", false⟩
    [Effect.metaCall "acme" "demo"]
    [Effect.metaCall "acme" "demo", Effect.treeCall "acme" "demo"]
    [("acme/demo/default",
      ([⟨"a.png", 1, "s1"⟩, ⟨"b.png", 1, "s2"⟩, ⟨"c.png", 1, "s3"⟩], 0))]
    0 [] rfl rfl rfl rfl

/-- C7: when the AI stream's accumulated text does not parse as JSON, the
engine yields an empty findings set and the tier still ends in a `complete`
event with `issuesFound = 0` — no `error` event and no `issue` event is
emitted anywhere in the run. -/
theorem c7_unparseable_ai_output_completes (w : World) (cache : FileTreeCache)
    (url : String) (priority : Nat) (tok : Option String) (ow rp : String)
    (info : RepoInfo) (vefs efs2 : List Effect) (c2 : FileTreeCache)
    (files : List FileContent) (tm : Nat) (prog : List (Nat × Nat × String))
    (frags : List String)
    (hp : parseGitHubUrl url = some (ow, rp))
    (hv : validateRepoM w ow rp = (.ok info, vefs))
    (hg : (info.isPrivate && tok.isNone) = false)
    (hf : getFilesForPriorityM w cache ow rp priority MAX_FILES_PER_PRIORITY =
      (.ok (files, tm), efs2, c2, prog))
    (hne : files ≠ [])
    (hai : w.aiResult = .ok frags)
    (hbad : w.parseJson (extractJsonStr (concatAll frags)) = none) :
    (∀ e ∈ (analyzeRepositoryM w cache url priority tok).1,
        isErrorEv e = false ∧ isIssueEv e = false) ∧
      ∃ dd, ((analyzeRepositoryM w cache url priority tok).1).getLast? =
          some (Event.complete dd) ∧ dd.issuesFound = 0 := by
  have hz : (files.length == 0) = false := by
    cases files with
    | nil => exact absurd rfl hne
    | cons a l => rfl
  have hpi : parseIssuesFromResponse w.parseJson w.nowMs (concatAll frags) = [] := by
    unfold parseIssuesFromResponse
    rw [hbad]
  unfold analyzeRepositoryM
  simp only [hp, hv, hg, Bool.false_eq_true, if_false, hf, hz]
  unfold streamAnalysisM
  simp only [hai, hpi, streamLoop_chunks_complete, List.map_nil, List.length_nil,
    List.append_nil]
  by_cases hlt : priority < 3
  · obtain ⟨files', tm', efs', prog', hsecond⟩ :=
      getFilesForPriorityM_second_ok w cache ow rp priority MAX_FILES_PER_PRIORITY
        files tm efs2 c2 prog hf (priority + 1) MAX_FILES_PER_PRIORITY
    simp only [if_pos hlt, hsecond]
    constructor
    · intro e he
      rcases List.mem_append.1 he with h | h
      · exact statusFile_not_error_issue e (analyzed_statusFile priority prog files e h)
      · simp only [List.mem_singleton] at h
        simp [h, isErrorEv, isIssueEv]
    · exact ⟨_, getLast?_append_singleton _ _, rfl⟩
  · simp only [if_neg hlt]
    constructor
    · intro e he
      rcases List.mem_append.1 he with h | h
      · exact statusFile_not_error_issue e (analyzed_statusFile priority prog files e h)
      · simp only [List.mem_singleton] at h
        simp [h, isErrorEv, isIssueEv]
    · exact ⟨_, getLast?_append_singleton _ _, rfl⟩

/-- A repository with a single tier-1 file whose AI response is not JSON. -/
def unparseableWorld : World :=
  { repoGet := .ok ⟨"", "", "acme/demo", none, 0, none, "2024", "main", false⟩,
    treeGet := .ok [⟨".env", "blob", some 8, "s1"⟩],
    contentGet := fun _ => .ok ("SECRET=1", 8),
    aiResult := .ok ["not ", "json"],
    parseJson := fun _ => none,
    nowMs := 5 }

/-- Witness for C7: with a truncated non-JSON AI response the run ends in
`complete` with zero issues. -/
theorem c7_unparseable_ai_output_completes_witness :
    (∀ e ∈ (analyzeRepositoryM unparseableWorld [] "https://github.com/acme/demo" 1
        none).1, isErrorEv e = false ∧ isIssueEv e = false) ∧
      ∃ dd, ((analyzeRepositoryM unparseableWorld [] "https://github.com/acme/demo" 1
          none).1).getLast? = some (Event.complete dd) ∧ dd.issuesFound = 0 :=
  c7_unparseable_ai_output_completes unparseableWorld [] "https://github.com/acme/demo"
    1 none "acme" "demo"
    ⟨"acme", "demo", "acme/demo", none, 0, none, "2024", "main", false⟩
    [Effect.metaCall "acme" "demo"]
    [Effect.metaCall "acme" "demo", Effect.treeCall "acme" "demo",
     Effect.contentCall ".env"]
    [("acme/demo/default", ([⟨".env", 8, "s1"⟩], 5))]
    [⟨".env", "SECRET=1", 8⟩] 1 [(1, 1, ".env")] ["not ", "json"]
    rfl rfl rfl rfl (by simp) rfl rfl

/-- C10: an AI response that parses as JSON but whose top-level value has
no `issues` field, or whose `issues` field is not an array, yields the
empty findings list — the zero-findings degradation is not limited to
malformed JSON. -/
theorem c10_wrong_shape_yields_empty (parseJson : String → Option Json)
    (nowMs : Nat) (response : String) (j : Json)
    (hparse : parseJson (extractJsonStr response) = some j)
    (hshape : getField j "issues" = none ∨
      ∃ v, getField j "issues" = some v ∧ isJsonArr v = false) :
    parseIssuesFromResponse parseJson nowMs response = [] := by
  unfold parseIssuesFromResponse
  simp only [hparse]
  rcases hshape with h | ⟨v, hv, harr⟩
  · simp only [h]
  · simp only [hv]
    cases hb : jsTruthy v
    · rfl
    · cases v <;> simp_all [isJsonArr]

/-- Witness for C10: a well-formed JSON object without an `issues` field
normalizes to zero findings. -/
theorem c10_wrong_shape_yields_empty_witness :
    (fun _ : String => some (Json.obj [("summary", Json.str "ok")]))
        (extractJsonStr "no issues here") =
      some (Json.obj [("summary", Json.str "ok")]) ∧
      parseIssuesFromResponse (fun _ => some (Json.obj [("summary", Json.str "ok")])) 7
        "no issues here" = [] :=
  ⟨rfl, c10_wrong_shape_yields_empty (fun _ => some (Json.obj [("summary", Json.str "ok")]))
    7 "no issues here" (Json.obj [("summary", Json.str "ok")]) rfl (Or.inl rfl)⟩

end CodeVibes
